import Mathlib

/-!
Verification development for the hugoreleaser release-production pipeline.

The Go sources embedded here are:
* `internal/archives/targz/targz.go` — the tar+gzip archive writer
  (`Archive.AddAndClose`, `Archive.Finalize`);
* `cmd/archivecmd/archive.go` — the archive orchestrator (`Archivist.Exec`);
* `cmd/releasecmd/release.go` — the release command (`Releaser.Exec`).

External effects (file system, network, the worker pool, the external
template/regexp/checksum helpers) are embedded as oracle parameters: each
structure of type `*Env` / `*Oracles` supplies the outcome the external world
would produce for each call the Go code makes, and the embedded functions
return, next to their result, the ordered trace of externally visible events
they performed.
-/

namespace Targz

/-- Summary of the metadata `os.File.Stat` returns and
`tar.FileInfoHeader` copies into the header: size, mode and
modification time. -/
structure FileInfo where
  size : Nat
  mode : Nat
  modTime : Nat
deriving DecidableEq, Repr

/-- Embeds the `ioh.File` handle passed to `AddAndClose`: its on-disk path,
the outcome of `Stat`, and the byte content a full read returns. -/
structure GoFile where
  sourcePath : String
  statRes : Except String FileInfo
  content : List Nat

/-- Outcomes of the external calls `AddAndClose` makes on the tar layer:
`tar.FileInfoHeader`, `tw.WriteHeader`, and `io.Copy` (which, on failure,
has copied `copiedBytes` bytes before erroring). -/
structure TarOracles where
  fileInfoHeaderErr : Option String
  writeHeaderErr : Option String
  copyErr : Option String
  copiedBytes : Nat

/-- One entry as it lands in the tar stream: the header name, the header
metadata, and the body bytes written after the header. -/
structure TarEntry where
  name : String
  info : FileInfo
  body : List Nat
deriving DecidableEq, Repr

/-- Result of one `AddAndClose` call: the returned error (if any), whether
the source file handle was closed by the time the call returned, and the
entries (headers with their bodies) written into the tar stream. -/
structure AddResult where
  res : Except String Unit
  closed : Bool
  written : List TarEntry
deriving Repr

/-- Embeds `Archive.AddAndClose` (targz.go:31-56).  `defer f.Close()` runs on
every return path, so each branch records `closed := true`.  On the success
path the header is written with `header.Name = targetPath` and the body is
the file's full content; if `io.Copy` fails the header is already in the
stream followed by the partially copied prefix. -/
def addAndClose (o : TarOracles) (targetPath : String) (f : GoFile) : AddResult :=
  match f.statRes with
  | .error e => { res := .error e, closed := true, written := [] }
  | .ok info =>
    match o.fileInfoHeaderErr with
    | some e => { res := .error e, closed := true, written := [] }
    | none =>
      match o.writeHeaderErr with
      | some e => { res := .error e, closed := true, written := [] }
      | none =>
        match o.copyErr with
        | some e =>
          { res := .error e, closed := true
            written := [{ name := targetPath, info := info, body := f.content.take o.copiedBytes }] }
        | none =>
          { res := .ok (), closed := true
            written := [{ name := targetPath, info := info, body := f.content }] }

/-- The three layers `Finalize` may close, innermost first: the tar body
writer, the gzip writer, the output sink. -/
inductive Layer where
  | tw
  | gw
  | out
deriving DecidableEq, Repr

/-- Embeds `Archive.Finalize` (targz.go:58-67): the oracle gives each
layer's `Close` outcome; the result is the returned error together with
the ordered list of layers whose `Close` was actually attempted.  The Go
code returns at the first failing close, so a failure of `tw.Close`
leaves `gw` and `out` unattempted. -/
def finalize (twErr gwErr outErr : Option String) : Option String × List Layer :=
  match twErr with
  | some e => (some e, [.tw])
  | none =>
    match gwErr with
    | some e => (some e, [.tw, .gw])
    | none => (outErr, [.tw, .gw, .out])

end Targz

namespace Changelog

/-- One commit as collected by the changelog collector: its subject line,
author identity and resolved username (release.go / changelog.Change). -/
structure Change where
  subject : String
  author : String
  username : String
deriving DecidableEq, Repr

/-- One grouping rule of `ReleaseNotesSettings.Groups`: the compiled
regular expression (embedded as its match predicate on the subject), the
group title, and the ignore flag. -/
structure ReleaseNotesGroup where
  regexpMatch : String → Bool
  title : String
  ignore : Bool

/-- A title together with the changes grouped under it
(changelog.TitleChanges). -/
structure TitleChanges where
  title : String
  changes : List Change
deriving DecidableEq, Repr

/-- Embeds the grouping closure passed to `changelog.GroupByFunc`
(release.go:230-240): walk the ordered rule list; at the first rule whose
regexp matches the commit subject, return `("", false)` if that rule is
flagged ignore and `(title, true)` otherwise; if no rule matches, return
`("", false)`. -/
def releaseNotesGroupFn : List ReleaseNotesGroup → Change → String × Bool
  | [], _ => ("", false)
  | g :: gs, change =>
    if g.regexpMatch change.subject then
      if g.ignore then ("", false) else (g.title, true)
    else releaseNotesGroupFn gs change

/-- Insert one change at the end of the group carrying `title`, creating
that group at the end of the list when absent. -/
def insertChange (acc : List TitleChanges) (title : String) (c : Change) :
    List TitleChanges :=
  match acc with
  | [] => [{ title := title, changes := [c] }]
  | tc :: rest =>
    if tc.title = title then { title := tc.title, changes := tc.changes ++ [c] } :: rest
    else tc :: insertChange rest title c

/-- One folding step of the grouping: a change mapped to `(_, false)` is
dropped, a change mapped to `(t, true)` is inserted under title `t`. -/
def groupStep (f : Change → String × Bool) (acc : List TitleChanges)
    (c : Change) : List TitleChanges :=
  match f c with
  | (_, false) => acc
  | (t, true) => insertChange acc t c

/-- Modelled from the spec: `changelog.GroupByFunc` (package
internal/releases/changelog, not under src/) groups the changes by the
title the supplied function assigns; a change mapped to `(_, false)` is
dropped from every group; groups are ordered by first assignment and each
carries its member commits in original commit order. -/
def GroupByFunc (f : Change → String × Bool) (changes : List Change) :
    List TitleChanges :=
  changes.foldl (groupStep f) []


end Changelog

/-- Embeds `filepath.Join` on slash paths: join the segments with a separator. -/
def filepathJoin (parts : List String) : String :=
  String.intercalate "/" parts

/-- Embeds `path.Join` of two segments. -/
def pathJoin (a b : String) : String :=
  a ++ "/" ++ b

/-- Embeds `filepath.Dir`: everything before the final separator. -/
def filepathDir (s : String) : String :=
  String.intercalate "/" ((s.splitOn "/").dropLast)

/-- Go `%q` on the path strings at hand: the string wrapped in double
quotes. -/
def strconvQuote (s : String) : String :=
  "\"" ++ s ++ "\""

namespace ArchiveCmd

/-- The template context `ArchiveTemplateContext` wraps
(archive.go:58-60, 116-123). -/
structure BuildContext where
  Project : String
  Tag : String
  Goos : String
  Goarch : String

/-- The part of a resolved `config.Arch` the archive task reads: the
OS/arch names, the binary name from the build settings, and the path
segment `arch.BinaryPath()` computes for the built binary. -/
structure Arch where
  Goos : String
  Goarch : String
  Binary : String
  BinaryPathSeg : String

/-- Embeds `config.BuildArchPath`: the canonical path segment of one build target
plus its resolved arch. -/
structure BuildArchPath where
  Path : String
  Arch : Arch

/-- One configured extra file of an archive group. -/
structure ExtraFile where
  SourcePath : String
  TargetPath : String

/-- The fields of `config.ArchiveSettings` the archive task reads.  The
external template renderer and the compiled replacer are embedded as the
`Replace` function applied by the task after rendering. -/
structure ArchiveSettings where
  NameTemplate : String
  Replace : String → String
  BinaryDir : String
  Extension : String
  ExtraFiles : List ExtraFile

/-- Embeds `archiveplugin.ArchiveFile`: absolute source path and in-archive
target path. -/
structure ArchiveFile where
  SourcePathAbs : String
  TargetPath : String
deriving DecidableEq, Repr

/-- The event payload of one `archiveplugin.Request` (the settings travel
with the request in Go but carry the external functions, so the event
records the output filename and file list that determine the archive). -/
structure Request where
  OutFilename : String
  Files : List ArchiveFile
deriving DecidableEq, Repr

/-- Externally visible actions of one archive task. -/
inductive AEvent where
  | removeAllMkdirAll (dir : String)
  | mkdirAll (dir : String)
  | build (req : Request)
deriving DecidableEq, Repr

/-- The environment of `Archivist.Exec`: the core configuration strings,
the external template renderer `templ.Sprintt`, and the oracle outcomes of
`os.Stat` (does the file exist), `ioh.RemoveAllMkdirAll`, `os.MkdirAll`
and `archives.Build`. -/
structure ACore where
  DistDir : String
  Project : String
  Tag : String
  DistRootArchives : String
  DistRootBuilds : String
  ProjectDir : String
  Sprintt : String → BuildContext → String
  FileExists : String → Bool
  RemoveAllMkdirAllErr : String → Option String
  MkdirAllErr : String → Option String
  BuildErr : Request → Option String

/-- The computed path of the expected binary for one target
(archive.go:142-148). -/
def binaryFilename (core : ACore) (archPath : BuildArchPath) : String :=
  filepathJoin
    [core.DistDir, core.Project, core.Tag, core.DistRootBuilds, archPath.Arch.BinaryPathSeg]

/-- The per-target output directory (archive.go:104-109, 128). -/
def outDirOf (core : ACore) (archPath : BuildArchPath) : String :=
  filepathJoin
    [core.DistDir, core.Project, core.Tag, core.DistRootArchives, archPath.Path]

/-- Embeds the body of the task `Archivist.Exec` submits per target
(archive.go:115-189): render and post-process the archive name, recreate
the output directory, verify the binary exists (a missing binary is a
hard failure reported with the binary's path, before any archive
construction), assemble the file list (binary first, then the extra
files), and invoke `archives.Build`. -/
def archiveTask (core : ACore) (settings : ArchiveSettings)
    (archPath : BuildArchPath) : Except String Unit × List AEvent :=
  let ctx : BuildContext :=
    { Project := core.Project, Tag := core.Tag
      Goos := archPath.Arch.Goos, Goarch := archPath.Arch.Goarch }
  let name := settings.Replace (core.Sprintt settings.NameTemplate ctx)
  let outDir := outDirOf core archPath
  match core.RemoveAllMkdirAllErr outDir with
  | some e => (.error e, [])
  | none =>
    let events := [AEvent.removeAllMkdirAll outDir]
    let outFilename := filepathJoin [outDir, name] ++ settings.Extension
    let bin := binaryFilename core archPath
    if core.FileExists bin then
      match core.MkdirAllErr (filepathDir outFilename) with
      | some e => (.error e, events)
      | none =>
        let events := events ++ [AEvent.mkdirAll (filepathDir outFilename)]
        let req : Request :=
          { OutFilename := outFilename
            Files :=
              { SourcePathAbs := bin
                TargetPath := pathJoin settings.BinaryDir archPath.Arch.Binary }
                :: settings.ExtraFiles.map fun ef =>
                  { SourcePathAbs := filepathJoin [core.ProjectDir, ef.SourcePath]
                    TargetPath := ef.TargetPath } }
        match core.BuildErr req with
        | some e => (.error e, events ++ [AEvent.build req])
        | none => (.ok (), events ++ [AEvent.build req])
    else
      (.error ("archive: binary file not found: " ++ strconvQuote bin), events)

/-- One archive group of the configuration: its settings and its resolved
build targets. -/
structure ArchiveConfig where
  ArchiveSettings : ArchiveSettings
  ArchsCompiled : List BuildArchPath

/-- Modelled from the spec: `Config.ForEachArchiveArch` and the shared
worker pool (packages internal/config and the workforce, not under src/)
schedule one independent task per archive group and matching build target;
`Wait` reports a failure after all tasks have run, without aborting
siblings.  The embedding therefore returns every task's own result. -/
def archivistExec (core : ACore) (archives : List ArchiveConfig)
    (filterMatch : String → Bool) : List (Except String Unit × List AEvent) :=
  archives.flatMap fun a =>
    (a.ArchsCompiled.filter fun ap => filterMatch ap.Path).map fun ap =>
      archiveTask core a.ArchiveSettings ap

end ArchiveCmd

namespace ReleaseCmd

/-- The release-notes half of `config.ReleaseSettings`: the generate flag,
the (possibly pre-existing) notes filename, and the grouping rules. -/
structure ReleaseNotesSettings where
  Generate : Bool
  Filename : String
  Groups : List Changelog.ReleaseNotesGroup

/-- The part of `config.ReleaseSettings` the release command reads.
`ReleaseType` embeds the configured release type (`Type` and its parsed
form `TypeParsed`, which name the provider). -/
structure ReleaseSettings where
  ReleaseType : String
  ReleaseNotesSettings : ReleaseNotesSettings

/-- One configured release target: its canonical path segment, the
compiled path filter `PathsCompiled` (embedded as its match predicate),
and its settings. -/
structure ReleaseConfig where
  Path : String
  PathsCompiledMatch : String → Bool
  ReleaseSettings : ReleaseSettings

/-- One resolved archive target as the release command sees it: its path
segment and output file name. -/
structure ArchTarget where
  Path : String
  Name : String

/-- One archive group: its resolved targets. -/
structure ArchiveGroup where
  ArchsCompiled : List ArchTarget

/-- The part of `corecmd.Core` the release command reads: the directory
layout strings, the dry-run flag `Try`, and the configured archives. -/
structure Core where
  DistDir : String
  Project : String
  Tag : String
  DistRootReleases : String
  DistRootArchives : String
  Try : Bool
  Archives : List ArchiveGroup

/-- Outcome of `os.Stat` on the release directory: success, a not-exist
error, or any other error. -/
inductive StatRes where
  | ok
  | notExist
  | err (msg : String)
deriving DecidableEq, Repr

/-- The release client in use: the real provider client for the release
type, or the no-op fake client. -/
inductive ClientKind where
  | real (releaseType : String)
  | fake
deriving DecidableEq, Repr

/-- Externally visible actions of `Releaser.Exec` for one release
target.  `clientRelease` records which client created the release record
and the notes filename carried inside the release settings at that point
(empty when no notes file is configured or generated). -/
inductive REvent where
  | removeAll (dir : String)
  | mkdirAll (dir : String)
  | writeChecksumFile (path : String) (lines : List String)
  | writeReleaseNotes (path : String) (groups : List Changelog.TitleChanges)
  | clientRelease (client : ClientKind) (notesFilename : String)
  | uploadAsset (client : ClientKind) (file : String)
deriving DecidableEq, Repr

/-- The oracle environment of one `Releaser.Exec` release iteration: the
outcome of each external call the Go code makes, in source order. -/
structure Env where
  Stat : StatRes
  RemoveAllErr : Option String
  MkdirAllErr : Option String
  ChecksumLines : Except String (List String)
  ChecksumWriteErr : Option String
  NewClientErr : Option String
  Changes : Except String (List Changelog.Change)
  NotesWriteErr : Option String
  ReleaseErr : Option String
  UploadErr : String → Option String

/-- The release's own output directory (release.go:108-114). -/
def releaseDirOf (core : Core) (release : ReleaseConfig) : String :=
  filepathJoin
    [core.DistDir, core.Project, core.Tag, core.DistRootReleases, release.Path]

/-- The archive files matched by the release's path filter
(release.go:129-147): every resolved arch of every archive group whose
path the filter matches, located under the archives root. -/
def collectArchiveFilenames (core : Core) (release : ReleaseConfig) :
    List String :=
  core.Archives.flatMap fun a =>
    (a.ArchsCompiled.filter fun ap => release.PathsCompiledMatch ap.Path).map fun ap =>
      filepathJoin
        [core.DistDir, core.Project, core.Tag, core.DistRootArchives, ap.Path, ap.Name]

/-- Embeds the release-directory handling (release.go:116-127): on a
successful stat, remove then recreate; on a not-exist error, only create;
on any other stat error, do nothing and proceed without reporting the
failure. -/
def prepareReleaseDir (stat : StatRes) (removeAllErr mkdirAllErr : Option String)
    (releaseDir : String) : Except String Unit × List REvent :=
  match stat with
  | .ok =>
    match removeAllErr with
    | some e =>
      (.error ("release: failed to remove release directory "
        ++ strconvQuote releaseDir ++ ": " ++ e), [])
    | none =>
      match mkdirAllErr with
      | some e =>
        (.error ("release: failed to create release directory "
          ++ strconvQuote releaseDir ++ ": " ++ e), [.removeAll releaseDir])
      | none => (.ok (), [.removeAll releaseDir, .mkdirAll releaseDir])
  | .notExist =>
    match mkdirAllErr with
    | some e =>
      (.error ("release: failed to create release directory "
        ++ strconvQuote releaseDir ++ ": " ++ e), [])
    | none => (.ok (), [.mkdirAll releaseDir])
  | .err _ => (.ok (), [])

/-- Embeds the release-notes generation block (release.go:204-276): when
generation is enabled, an explicitly configured pre-existing notes
filename is a configuration error naming the release type; otherwise the
changes are collected, grouped with `GroupByFunc` under the closure
verified in `changelog_first_match_grouping`, rendered into
`release-notes.md` in the release directory, and that path is stored into
the settings' notes filename for the provider call. -/
def generateNotes (changes : Except String (List Changelog.Change))
    (notesWriteErr : Option String) (releaseDir : String)
    (settings : ReleaseSettings) : Except String ReleaseSettings × List REvent :=
  if settings.ReleaseNotesSettings.Generate then
    if settings.ReleaseNotesSettings.Filename ≠ "" then
      (.error ("release: both GenerateReleaseNotes and ReleaseNotesFilename are set for release type "
        ++ strconvQuote settings.ReleaseType), [])
    else
      match changes with
      | .error e => (.error e, [])
      | .ok infos =>
        let grouped := Changelog.GroupByFunc
          (Changelog.releaseNotesGroupFn settings.ReleaseNotesSettings.Groups) infos
        let fn := filepathJoin [releaseDir, "release-notes.md"]
        match notesWriteErr with
        | some e =>
          (.error ("release: failed to create release notes file "
            ++ strconvQuote fn ++ ": " ++ e), [])
        | none =>
          (.ok { settings with
              ReleaseNotesSettings := { settings.ReleaseNotesSettings with Filename := fn } },
            [.writeReleaseNotes fn grouped])
  else (.ok settings, [])

/-- Embeds one iteration of the release loop of `Releaser.Exec`
(release.go:107-305): prepare the release directory, collect the matched
archive files (an empty match is an error naming the release), then — in
dry-run (`Try`) mode — skip the rest of the iteration; otherwise write
`checksum.txt` from the checksum lines, append it to the assets, create
the release client (the dry-run fake substitution sits after the skip and
is unreachable), run the release-notes block, create the release record,
and schedule one asset upload per collected file, failing if any upload
failed.  The `-commitish` flag flows only into the changelog collection
and the release info, both absorbed by the oracles. -/
def execRelease (env : Env) (core : Core) (release : ReleaseConfig) :
    Except String Unit × List REvent :=
  let releaseDir := releaseDirOf core release
  match prepareReleaseDir env.Stat env.RemoveAllErr env.MkdirAllErr releaseDir with
  | (.error e, evs) => (.error e, evs)
  | (.ok _, evs0) =>
    let archiveFilenames := collectArchiveFilenames core release
    if archiveFilenames.isEmpty then
      (.error ("release: no files found for release " ++ strconvQuote release.Path), evs0)
    else if core.Try then
      (.ok (), evs0)
    else
      match env.ChecksumLines with
      | .error e => (.error e, evs0)
      | .ok lines =>
        let checksumFilename := filepathJoin [releaseDir, "checksum.txt"]
        match env.ChecksumWriteErr with
        | some e =>
          (.error ("release: failed to create checksum file "
            ++ strconvQuote checksumFilename ++ ": " ++ e), evs0)
        | none =>
          let evs1 := evs0 ++ [REvent.writeChecksumFile checksumFilename lines]
          let archiveFilenames := archiveFilenames ++ [checksumFilename]
          match env.NewClientErr with
          | some e => (.error ("release: failed to create release client: " ++ e), evs1)
          | none =>
            let client := if core.Try then ClientKind.fake
              else ClientKind.real release.ReleaseSettings.ReleaseType
            match generateNotes env.Changes env.NotesWriteErr releaseDir
                release.ReleaseSettings with
            | (.error e, evsN) => (.error e, evs1 ++ evsN)
            | (.ok settings, evsN) =>
              let evs2 := evs1 ++ evsN
                ++ [REvent.clientRelease client settings.ReleaseNotesSettings.Filename]
              match env.ReleaseErr with
              | some e => (.error ("release: failed to create release: " ++ e), evs2)
              | none =>
                let evs3 := evs2 ++ archiveFilenames.map (REvent.uploadAsset client)
                match archiveFilenames.find? fun f => (env.UploadErr f).isSome with
                | some _ => (.error "release: failed to upload files", evs3)
                | none => (.ok (), evs3)

/-- The files an event trace uploads, in upload order. -/
def uploadedFiles (evs : List REvent) : List String :=
  evs.filterMap fun ev =>
    match ev with
    | .uploadAsset _ f => some f
    | _ => none

end ReleaseCmd

/-- C2 counterexample: when the tar body-writer close fails, `Finalize`
returns immediately — the gzip-layer close and the sink close are NOT
attempted, contradicting the claim that later closes in the chain are
still attempted after an earlier failure. -/
theorem finalize_counterexample :
    Targz.finalize (some "tw close failed") none none
        = (some "tw close failed", [Targz.Layer.tw])
      ∧ Targz.Layer.gw ∉ (Targz.finalize (some "tw close failed") none none).2
      ∧ Targz.Layer.out ∉ (Targz.finalize (some "tw close failed") none none).2 := by
  refine ⟨rfl, ?_, ?_⟩ <;> decide

/-- C2 amended: `Finalize` attempts the closes in the order tar body
writer, then gzip layer, then output sink, and returns the first close
failure encountered; but it returns at that first failure without
attempting the later closes in the chain.  Only when every earlier close
succeeds is the next layer's close attempted. -/
theorem finalize_close_order (twErr gwErr outErr : Option String) :
    (∀ e, twErr = some e →
        Targz.finalize twErr gwErr outErr = (some e, [Targz.Layer.tw]))
      ∧ (∀ e, twErr = none → gwErr = some e →
        Targz.finalize twErr gwErr outErr = (some e, [Targz.Layer.tw, Targz.Layer.gw]))
      ∧ (twErr = none → gwErr = none →
        Targz.finalize twErr gwErr outErr
          = (outErr, [Targz.Layer.tw, Targz.Layer.gw, Targz.Layer.out])) := by
  refine ⟨?_, ?_, ?_⟩
  · intro e he
    subst he
    rfl
  · intro e htw hgw
    subst htw
    subst hgw
    rfl
  · intro htw hgw
    subst htw
    subst hgw
    rfl

/-- Witness for `finalize_close_order` at a concrete input: the gzip layer
close fails while the tar close succeeds, so the error is the gzip error
and exactly the first two layers were attempted. -/
theorem finalize_close_order_witness :
    Targz.finalize none (some "gzip boom") none
      = (some "gzip boom", [Targz.Layer.tw, Targz.Layer.gw]) :=
  (finalize_close_order none (some "gzip boom") none).2.1 "gzip boom" rfl rfl

/-- C8: a successful `AddAndClose` writes exactly one entry whose archive
name is `targetPath` — for any on-disk source path whatsoever — and whose
body bytes are exactly the source file's content. -/
theorem addAndClose_entry_name_and_content (o : Targz.TarOracles)
    (targetPath : String) (f : Targz.GoFile) (info : Targz.FileInfo)
    (hstat : f.statRes = .ok info)
    (hh : o.fileInfoHeaderErr = none)
    (hw : o.writeHeaderErr = none)
    (hc : o.copyErr = none) :
    (Targz.addAndClose o targetPath f).written
        = [{ name := targetPath, info := info, body := f.content }]
      ∧ (Targz.addAndClose o targetPath f).res = .ok ()
      ∧ ∀ otherPath : String,
        (Targz.addAndClose o targetPath { f with sourcePath := otherPath }).written
          = [{ name := targetPath, info := info, body := f.content }] := by
  refine ⟨?_, ?_, ?_⟩
  · unfold Targz.addAndClose
    rw [hstat, hh, hw, hc]
  · unfold Targz.addAndClose
    rw [hstat, hh, hw, hc]
  · intro otherPath
    unfold Targz.addAndClose
    simp only []
    rw [show ({ f with sourcePath := otherPath } : Targz.GoFile).statRes = f.statRes from rfl,
      hstat, hh, hw, hc]

/-- Witness for `addAndClose_entry_name_and_content` at a concrete file:
the entry is named by the target path and carries the file's bytes. -/
theorem addAndClose_entry_name_and_content_witness :
    (Targz.addAndClose
        { fileInfoHeaderErr := none, writeHeaderErr := none, copyErr := none, copiedBytes := 0 }
        "bindir/hugo"
        { sourcePath := "/dist/hugo", statRes := .ok ⟨3, 420, 7⟩, content := [104, 105, 33] }).written
      = [{ name := "bindir/hugo", info := ⟨3, 420, 7⟩, body := [104, 105, 33] }] :=
  (addAndClose_entry_name_and_content
    { fileInfoHeaderErr := none, writeHeaderErr := none, copyErr := none, copiedBytes := 0 }
    "bindir/hugo"
    { sourcePath := "/dist/hugo", statRes := .ok ⟨3, 420, 7⟩, content := [104, 105, 33] }
    ⟨3, 420, 7⟩ rfl rfl rfl rfl).1

namespace Changelog

theorem mem_insertChange_changes {acc : List TitleChanges} {title : String}
    {c x : Change} {tc : TitleChanges} (h : tc ∈ insertChange acc title c)
    (hx : x ∈ tc.changes) :
    (∃ tc0 ∈ acc, tc0.title = tc.title ∧ x ∈ tc0.changes)
      ∨ (x = c ∧ tc.title = title) := by
  induction acc with
  | nil =>
    simp only [insertChange, List.mem_singleton] at h
    subst h
    simp only [List.mem_singleton] at hx
    exact Or.inr ⟨hx, rfl⟩
  | cons hd rest ih =>
    simp only [insertChange] at h
    by_cases hteq : hd.title = title
    · rw [if_pos hteq] at h
      rcases List.mem_cons.mp h with h1 | h2
      · subst h1
        simp only [List.mem_append, List.mem_singleton] at hx
        rcases hx with hx1 | hx2
        · exact Or.inl ⟨hd, List.mem_cons_self _ _, rfl, hx1⟩
        · exact Or.inr ⟨hx2, hteq⟩
      · exact Or.inl ⟨tc, List.mem_cons_of_mem _ h2, rfl, hx⟩
    · rw [if_neg hteq] at h
      rcases List.mem_cons.mp h with h1 | h2
      · subst h1
        exact Or.inl ⟨tc, List.mem_cons_self _ _, rfl, hx⟩
      · rcases ih h2 with ⟨tc0, htc0, heq, hxm⟩ | hr
        · exact Or.inl ⟨tc0, List.mem_cons_of_mem _ htc0, heq, hxm⟩
        · exact Or.inr hr

theorem insertChange_mem_self (acc : List TitleChanges) (title : String)
    (c : Change) :
    ∃ tc ∈ insertChange acc title c, tc.title = title ∧ c ∈ tc.changes := by
  induction acc with
  | nil =>
    exact ⟨{ title := title, changes := [c] }, List.mem_singleton.mpr rfl, rfl,
      List.mem_singleton.mpr rfl⟩
  | cons hd rest ih =>
    simp only [insertChange]
    by_cases hteq : hd.title = title
    · rw [if_pos hteq]
      refine ⟨{ title := hd.title, changes := hd.changes ++ [c] }, List.mem_cons_self _ _,
        hteq, ?_⟩
      simp
    · rw [if_neg hteq]
      obtain ⟨tc, htc, ht, hc⟩ := ih
      exact ⟨tc, List.mem_cons_of_mem _ htc, ht, hc⟩

theorem insertChange_mem_other {acc : List TitleChanges} {title : String}
    {c : Change} {tc0 : TitleChanges} {x : Change} (h0 : tc0 ∈ acc)
    (hx : x ∈ tc0.changes) :
    ∃ tc ∈ insertChange acc title c, tc.title = tc0.title ∧ x ∈ tc.changes := by
  induction acc with
  | nil => cases h0
  | cons hd rest ih =>
    simp only [insertChange]
    by_cases hteq : hd.title = title
    · rw [if_pos hteq]
      rcases List.mem_cons.mp h0 with h1 | h2
      · subst h1
        exact ⟨{ title := tc0.title, changes := tc0.changes ++ [c] }, List.mem_cons_self _ _,
          rfl, List.mem_append.mpr (Or.inl hx)⟩
      · exact ⟨tc0, List.mem_cons_of_mem _ h2, rfl, hx⟩
    · rw [if_neg hteq]
      rcases List.mem_cons.mp h0 with h1 | h2
      · subst h1
        exact ⟨tc0, List.mem_cons_self _ _, rfl, hx⟩
      · obtain ⟨tc, htc, ht, hxm⟩ := ih h2
        exact ⟨tc, List.mem_cons_of_mem _ htc, ht, hxm⟩

/-- The soundness invariant is preserved by one grouping step: every
change in every group was kept by the function under that group's title. -/
theorem groupStep_sound (f : Change → String × Bool) (acc : List TitleChanges)
    (c : Change)
    (hacc : ∀ tc0 ∈ acc, ∀ y ∈ tc0.changes, (f y).2 = true ∧ (f y).1 = tc0.title) :
    ∀ tc0 ∈ groupStep f acc c, ∀ y ∈ tc0.changes,
      (f y).2 = true ∧ (f y).1 = tc0.title := by
  intro tc0 h0 y hy
  unfold groupStep at h0
  rcases hfc : f c with ⟨t, b⟩
  rw [hfc] at h0
  cases b with
  | false => exact hacc tc0 h0 y hy
  | true =>
    rcases mem_insertChange_changes h0 hy with ⟨tc2, h2, heq, hym⟩ | ⟨hyc, hteq⟩
    · obtain ⟨hb, ht⟩ := hacc tc2 h2 y hym
      exact ⟨hb, heq ▸ ht⟩
    · subst hyc
      rw [hfc, hteq]
      exact ⟨rfl, rfl⟩

theorem foldl_groupStep_sound (f : Change → String × Bool) :
    ∀ (l : List Change) (acc : List TitleChanges),
      (∀ tc0 ∈ acc, ∀ y ∈ tc0.changes, (f y).2 = true ∧ (f y).1 = tc0.title) →
      ∀ tc0 ∈ l.foldl (groupStep f) acc, ∀ y ∈ tc0.changes,
        (f y).2 = true ∧ (f y).1 = tc0.title := by
  intro l
  induction l with
  | nil => exact fun acc hacc => hacc
  | cons c cs ih =>
    intro acc hacc
    simp only [List.foldl_cons]
    exact ih (groupStep f acc c) (groupStep_sound f acc c hacc)

/-- Any change found inside a group of `GroupByFunc`'s output was mapped by
the function to that group's title with the keep flag set. -/
theorem mem_GroupByFunc (f : Change → String × Bool) (changes : List Change)
    {tc : TitleChanges} {x : Change} (htc : tc ∈ GroupByFunc f changes)
    (hx : x ∈ tc.changes) : (f x).2 = true ∧ (f x).1 = tc.title :=
  foldl_groupStep_sound f changes [] (by intro tc0 h0; cases h0) tc htc x hx

theorem foldl_groupStep_kept (f : Change → String × Bool) {c : Change}
    {t : String} (hf : f c = (t, true)) :
    ∀ (l : List Change) (acc : List TitleChanges),
      ((∃ tc ∈ acc, tc.title = t ∧ c ∈ tc.changes) ∨ c ∈ l) →
      ∃ tc ∈ l.foldl (groupStep f) acc, tc.title = t ∧ c ∈ tc.changes := by
  intro l
  induction l with
  | nil =>
    intro acc hstart
    rcases hstart with h | h
    · exact h
    · cases h
  | cons d ds ih =>
    intro acc hstart
    simp only [List.foldl_cons]
    refine ih (groupStep f acc d) ?_
    rcases hstart with ⟨tc0, h0, ht0, hc0⟩ | h
    · unfold groupStep
      rcases hfd : f d with ⟨td, bd⟩
      cases bd with
      | false => exact Or.inl ⟨tc0, h0, ht0, hc0⟩
      | true =>
        obtain ⟨tc, htc, ht, hcm⟩ := insertChange_mem_other h0 hc0
        exact Or.inl ⟨tc, htc, ht.trans ht0, hcm⟩
    · rcases List.mem_cons.mp h with h1 | h2
      · subst h1
        unfold groupStep
        rw [hf]
        exact Or.inl (insertChange_mem_self acc t c)
      · exact Or.inr h2

/-- Any change of the input that the function maps to `(t, true)` appears
in the output under a group titled `t`. -/
theorem GroupByFunc_mem_of_kept (f : Change → String × Bool)
    (changes : List Change) {c : Change} {t : String} (hc : c ∈ changes)
    (hf : f c = (t, true)) :
    ∃ tc ∈ GroupByFunc f changes, tc.title = t ∧ c ∈ tc.changes :=
  foldl_groupStep_kept f hf changes [] (Or.inr hc)

/-- The outcome of the grouping closure on a commit whose first matching
rule is `g` after the non-matching rules `pre`. -/
theorem releaseNotesGroupFn_first_match (pre : List ReleaseNotesGroup)
    (g : ReleaseNotesGroup) (post : List ReleaseNotesGroup) (c : Change)
    (hpre : ∀ g' ∈ pre, g'.regexpMatch c.subject = false)
    (hg : g.regexpMatch c.subject = true) :
    releaseNotesGroupFn (pre ++ g :: post) c
      = if g.ignore then ("", false) else (g.title, true) := by
  induction pre with
  | nil =>
    simp only [List.nil_append, releaseNotesGroupFn, hg, if_true]
  | cons p ps ih =>
    have hp : p.regexpMatch c.subject = false := hpre p (List.mem_cons_self _ _)
    simp only [List.cons_append, releaseNotesGroupFn, hp]
    simp only [Bool.false_eq_true, if_false]
    exact ih fun g' hg' => hpre g' (List.mem_cons_of_mem _ hg')

/-- The grouping closure on a commit matching no rule at all. -/
theorem releaseNotesGroupFn_no_match (groups : List ReleaseNotesGroup)
    (c : Change) (h : ∀ g ∈ groups, g.regexpMatch c.subject = false) :
    releaseNotesGroupFn groups c = ("", false) := by
  induction groups with
  | nil => rfl
  | cons p ps ih =>
    have hp : p.regexpMatch c.subject = false := h p (List.mem_cons_self _ _)
    simp only [releaseNotesGroupFn, hp, Bool.false_eq_true, if_false]
    exact ih fun g' hg' => h g' (List.mem_cons_of_mem _ hg')

end Changelog

/-- C5: under the release-notes grouping of `Releaser.Exec`
(release.go:230-240), for a commit whose subject matches rule `g` and no
earlier rule in the ordered list: if `g` is not flagged ignore the commit
is grouped under `g`'s title; if `g` is flagged ignore the commit appears
in no group at all; and a commit whose subject matches no rule appears in
no group. -/
theorem changelog_first_match_grouping
    (groups pre post : List Changelog.ReleaseNotesGroup)
    (g : Changelog.ReleaseNotesGroup)
    (changes : List Changelog.Change) (c : Changelog.Change)
    (hc : c ∈ changes) :
    (groups = pre ++ g :: post →
      (∀ p ∈ pre, p.regexpMatch c.subject = false) →
      g.regexpMatch c.subject = true →
      (g.ignore = false →
        ∃ tc ∈ Changelog.GroupByFunc (Changelog.releaseNotesGroupFn groups) changes,
          tc.title = g.title ∧ c ∈ tc.changes)
      ∧ (g.ignore = true →
        ∀ tc ∈ Changelog.GroupByFunc (Changelog.releaseNotesGroupFn groups) changes,
          c ∉ tc.changes))
    ∧ ((∀ p ∈ groups, p.regexpMatch c.subject = false) →
      ∀ tc ∈ Changelog.GroupByFunc (Changelog.releaseNotesGroupFn groups) changes,
        c ∉ tc.changes) := by
  constructor
  · intro hsplit hpre hg
    constructor
    · intro hig
      have hfn : Changelog.releaseNotesGroupFn groups c = (g.title, true) := by
        rw [hsplit, Changelog.releaseNotesGroupFn_first_match pre g post c hpre hg, hig]
        simp
      exact Changelog.GroupByFunc_mem_of_kept _ changes hc hfn
    · intro hig tc htc hmem
      have hfn : Changelog.releaseNotesGroupFn groups c = ("", false) := by
        rw [hsplit, Changelog.releaseNotesGroupFn_first_match pre g post c hpre hg, hig]
        simp
      have := (Changelog.mem_GroupByFunc _ changes htc hmem).1
      rw [hfn] at this
      cases this
  · intro hnone tc htc hmem
    have hfn : Changelog.releaseNotesGroupFn groups c = ("", false) :=
      Changelog.releaseNotesGroupFn_no_match groups c hnone
    have := (Changelog.mem_GroupByFunc _ changes htc hmem).1
    rw [hfn] at this
    cases this

/-- Witness for `changelog_first_match_grouping`: with an ignore rule for
docs commits followed by a fix rule, a fix commit lands in the group
titled Fixes. -/
theorem changelog_first_match_grouping_witness :
    ∃ tc ∈ Changelog.GroupByFunc
        (Changelog.releaseNotesGroupFn
          [{ regexpMatch := fun s => s == "docs: readme", title := "Docs", ignore := true },
           { regexpMatch := fun s => s == "fix: parser", title := "Fixes", ignore := false }])
        [{ subject := "fix: parser", author := "ada", username := "ada" }],
      tc.title = "Fixes"
        ∧ ({ subject := "fix: parser", author := "ada", username := "ada" } :
            Changelog.Change) ∈ tc.changes :=
  ((changelog_first_match_grouping
      [{ regexpMatch := fun s => s == "docs: readme", title := "Docs", ignore := true },
       { regexpMatch := fun s => s == "fix: parser", title := "Fixes", ignore := false }]
      [{ regexpMatch := fun s => s == "docs: readme", title := "Docs", ignore := true }]
      []
      { regexpMatch := fun s => s == "fix: parser", title := "Fixes", ignore := false }
      [{ subject := "fix: parser", author := "ada", username := "ada" }]
      { subject := "fix: parser", author := "ada", username := "ada" }
      (List.mem_singleton.mpr rfl)).1
    rfl
    (by
      intro p hp
      rw [List.mem_singleton.mp hp]
      decide)
    (by decide)).1 rfl

/-- C4: when the expected binary of a build target is absent, the target's
archive task fails with an error message containing the exact expected
binary path, no archive construction (`archives.Build`) happens for that
target, and any other target whose binary exists (and whose directory and
build steps succeed) still produces its archive. -/
theorem missing_binary_hard_failure (core : ArchiveCmd.ACore)
    (s s' : ArchiveCmd.ArchiveSettings) (ap ap' : ArchiveCmd.BuildArchPath)
    (hdir : core.RemoveAllMkdirAllErr (ArchiveCmd.outDirOf core ap) = none)
    (hmiss : core.FileExists (ArchiveCmd.binaryFilename core ap) = false) :
    ((ArchiveCmd.archiveTask core s ap).1
        = .error ("archive: binary file not found: "
            ++ strconvQuote (ArchiveCmd.binaryFilename core ap))
      ∧ (∃ pre post, ("archive: binary file not found: "
            ++ strconvQuote (ArchiveCmd.binaryFilename core ap))
          = pre ++ ArchiveCmd.binaryFilename core ap ++ post)
      ∧ ∀ req, ArchiveCmd.AEvent.build req ∉ (ArchiveCmd.archiveTask core s ap).2)
    ∧ (core.RemoveAllMkdirAllErr (ArchiveCmd.outDirOf core ap') = none →
      core.FileExists (ArchiveCmd.binaryFilename core ap') = true →
      (∀ d, core.MkdirAllErr d = none) →
      (∀ req, core.BuildErr req = none) →
      (ArchiveCmd.archiveTask core s' ap').1 = .ok ()
        ∧ ∃ req, ArchiveCmd.AEvent.build req ∈ (ArchiveCmd.archiveTask core s' ap').2) := by
  constructor
  · refine ⟨?_, ?_, ?_⟩
    · simp only [ArchiveCmd.archiveTask, hdir, hmiss, Bool.false_eq_true, if_false]
    · refine ⟨"archive: binary file not found: " ++ "\"", "\"", ?_⟩
      unfold strconvQuote
      simp only [String.append_assoc]
    · intro req
      simp [ArchiveCmd.archiveTask, hdir, hmiss]
  · intro hdir' hexists hmk hbuild
    constructor
    · simp only [ArchiveCmd.archiveTask, hdir', hexists, if_true, hmk, hbuild]
    · simp only [ArchiveCmd.archiveTask, hdir', hexists, if_true, hmk, hbuild]
      exact ⟨_, List.mem_append_right _ (List.mem_singleton.mpr rfl)⟩

/-- Witness for `missing_binary_hard_failure`: a linux/amd64 target whose
binary is missing fails with the path in its message while the
darwin/arm64 sibling, whose binary exists, archives successfully. -/
theorem missing_binary_hard_failure_witness :
    (ArchiveCmd.archiveTask
        { DistDir := "dist", Project := "hugo", Tag := "v1.0"
          DistRootArchives := "archives", DistRootBuilds := "builds"
          ProjectDir := "proj"
          Sprintt := fun t _ => t
          FileExists := fun p => p == "dist/hugo/v1.0/builds/darwin/arm64/hugo"
          RemoveAllMkdirAllErr := fun _ => none
          MkdirAllErr := fun _ => none
          BuildErr := fun _ => none }
        { NameTemplate := "hugo", Replace := id, BinaryDir := "bin"
          Extension := ".tar.gz", ExtraFiles := [] }
        { Path := "linux/amd64"
          Arch := { Goos := "linux", Goarch := "amd64", Binary := "hugo"
                    BinaryPathSeg := "linux/amd64/hugo" } }).1
      = .error "archive: binary file not found: \"dist/hugo/v1.0/builds/linux/amd64/hugo\""
    ∧ (ArchiveCmd.archiveTask
        { DistDir := "dist", Project := "hugo", Tag := "v1.0"
          DistRootArchives := "archives", DistRootBuilds := "builds"
          ProjectDir := "proj"
          Sprintt := fun t _ => t
          FileExists := fun p => p == "dist/hugo/v1.0/builds/darwin/arm64/hugo"
          RemoveAllMkdirAllErr := fun _ => none
          MkdirAllErr := fun _ => none
          BuildErr := fun _ => none }
        { NameTemplate := "hugo", Replace := id, BinaryDir := "bin"
          Extension := ".tar.gz", ExtraFiles := [] }
        { Path := "darwin/arm64"
          Arch := { Goos := "darwin", Goarch := "arm64", Binary := "hugo"
                    BinaryPathSeg := "darwin/arm64/hugo" } }).1
      = .ok () := by
  have h := missing_binary_hard_failure
    { DistDir := "dist", Project := "hugo", Tag := "v1.0"
      DistRootArchives := "archives", DistRootBuilds := "builds"
      ProjectDir := "proj"
      Sprintt := fun t _ => t
      FileExists := fun p => p == "dist/hugo/v1.0/builds/darwin/arm64/hugo"
      RemoveAllMkdirAllErr := fun _ => none
      MkdirAllErr := fun _ => none
      BuildErr := fun _ => none }
    { NameTemplate := "hugo", Replace := id, BinaryDir := "bin"
      Extension := ".tar.gz", ExtraFiles := [] }
    { NameTemplate := "hugo", Replace := id, BinaryDir := "bin"
      Extension := ".tar.gz", ExtraFiles := [] }
    { Path := "linux/amd64"
      Arch := { Goos := "linux", Goarch := "amd64", Binary := "hugo"
                BinaryPathSeg := "linux/amd64/hugo" } }
    { Path := "darwin/arm64"
      Arch := { Goos := "darwin", Goarch := "arm64", Binary := "hugo"
                BinaryPathSeg := "darwin/arm64/hugo" } }
    rfl (by decide)
  refine ⟨h.1.1.trans ?_, (h.2 rfl (by decide) (fun _ => rfl) (fun _ => rfl)).1⟩
  exact congrArg Except.error (by decide)

/-- The release-directory preparation only ever removes or recreates the
release directory itself. -/
theorem prepareReleaseDir_events (stat : ReleaseCmd.StatRes)
    (rm mk : Option String) (rd : String) :
    ∀ ev ∈ (ReleaseCmd.prepareReleaseDir stat rm mk rd).2,
      ev = ReleaseCmd.REvent.removeAll rd ∨ ev = ReleaseCmd.REvent.mkdirAll rd := by
  intro ev hev
  cases stat <;> cases rm <;> cases mk <;>
    simp only [ReleaseCmd.prepareReleaseDir, List.mem_cons, List.mem_singleton,
      List.not_mem_nil] at hev <;>
    tauto

/-- The release-notes block only ever writes the release-notes file. -/
theorem generateNotes_events (chs : Except String (List Changelog.Change))
    (nw : Option String) (rd : String) (s : ReleaseCmd.ReleaseSettings) :
    ∀ ev ∈ (ReleaseCmd.generateNotes chs nw rd s).2,
      ∃ g, ev = ReleaseCmd.REvent.writeReleaseNotes
        (filepathJoin [rd, "release-notes.md"]) g := by
  intro ev hev
  unfold ReleaseCmd.generateNotes at hev
  by_cases hgen : s.ReleaseNotesSettings.Generate = true
  · rw [if_pos hgen] at hev
    by_cases hfn : s.ReleaseNotesSettings.Filename ≠ ""
    · rw [if_pos hfn] at hev
      simp at hev
    · rw [if_neg hfn] at hev
      rcases chs with e | infos
      · simp at hev
      · rcases nw with _ | e
        · simp only [List.mem_singleton] at hev
          exact ⟨_, hev⟩
        · simp at hev
  · rw [if_neg hgen] at hev
    simp at hev

/-- C6: a release target whose path filter matches no archive file makes
the release command fail with an error naming that release, and neither a
provider release creation nor any asset upload happens for it. -/
theorem empty_release_no_remote_action (env : ReleaseCmd.Env)
    (core : ReleaseCmd.Core) (release : ReleaseCmd.ReleaseConfig)
    (hprep : (ReleaseCmd.prepareReleaseDir env.Stat env.RemoveAllErr env.MkdirAllErr
      (ReleaseCmd.releaseDirOf core release)).1 = .ok ())
    (hempty : ReleaseCmd.collectArchiveFilenames core release = []) :
    (ReleaseCmd.execRelease env core release).1
        = .error ("release: no files found for release " ++ strconvQuote release.Path)
      ∧ (∀ c fn, ReleaseCmd.REvent.clientRelease c fn
          ∉ (ReleaseCmd.execRelease env core release).2)
      ∧ (∀ c f, ReleaseCmd.REvent.uploadAsset c f
          ∉ (ReleaseCmd.execRelease env core release).2) := by
  rcases hpair : ReleaseCmd.prepareReleaseDir env.Stat env.RemoveAllErr env.MkdirAllErr
      (ReleaseCmd.releaseDirOf core release) with ⟨res, evs0⟩
  rw [hpair] at hprep
  simp only at hprep
  subst hprep
  have hexec : ReleaseCmd.execRelease env core release
      = (.error ("release: no files found for release " ++ strconvQuote release.Path), evs0) := by
    simp only [ReleaseCmd.execRelease, hpair, hempty, List.isEmpty_nil, if_true]
  refine ⟨by rw [hexec], ?_, ?_⟩
  · intro c fn hmem
    rw [hexec] at hmem
    have := prepareReleaseDir_events env.Stat env.RemoveAllErr env.MkdirAllErr
      (ReleaseCmd.releaseDirOf core release) _ (by rw [hpair]; exact hmem)
    rcases this with h | h <;> cases h
  · intro c f hmem
    rw [hexec] at hmem
    have := prepareReleaseDir_events env.Stat env.RemoveAllErr env.MkdirAllErr
      (ReleaseCmd.releaseDirOf core release) _ (by rw [hpair]; exact hmem)
    rcases this with h | h <;> cases h

/-- Witness for `empty_release_no_remote_action`: a release whose filter
matches nothing fails with the release named in the error. -/
theorem empty_release_no_remote_action_witness :
    (ReleaseCmd.execRelease
        { Stat := .ok, RemoveAllErr := none, MkdirAllErr := none
          ChecksumLines := .ok [], ChecksumWriteErr := none, NewClientErr := none
          Changes := .ok [], NotesWriteErr := none, ReleaseErr := none
          UploadErr := fun _ => none }
        { DistDir := "dist", Project := "hugo", Tag := "v1.0"
          DistRootReleases := "releases", DistRootArchives := "archives"
          Try := false
          Archives := [{ ArchsCompiled := [{ Path := "linux/amd64", Name := "hugo.tar.gz" }] }] }
        { Path := "myrelease", PathsCompiledMatch := fun _ => false
          ReleaseSettings :=
            { ReleaseType := "github"
              ReleaseNotesSettings := { Generate := false, Filename := "", Groups := [] } } }).1
      = .error "release: no files found for release \"myrelease\"" := by
  have h := empty_release_no_remote_action
    { Stat := .ok, RemoveAllErr := none, MkdirAllErr := none
      ChecksumLines := .ok [], ChecksumWriteErr := none, NewClientErr := none
      Changes := .ok [], NotesWriteErr := none, ReleaseErr := none
      UploadErr := fun _ => none }
    { DistDir := "dist", Project := "hugo", Tag := "v1.0"
      DistRootReleases := "releases", DistRootArchives := "archives"
      Try := false
      Archives := [{ ArchsCompiled := [{ Path := "linux/amd64", Name := "hugo.tar.gz" }] }] }
    { Path := "myrelease", PathsCompiledMatch := fun _ => false
      ReleaseSettings :=
        { ReleaseType := "github"
          ReleaseNotesSettings := { Generate := false, Filename := "", Groups := [] } } }
    rfl rfl
  exact h.1.trans (congrArg Except.error (by decide))

/-- C7: with release-notes generation enabled and a pre-existing notes
filename also configured, the release iteration fails with a
configuration error naming the release type, and no release-notes file is
written. -/
theorem conflicting_release_notes_config (env : ReleaseCmd.Env)
    (core : ReleaseCmd.Core) (release : ReleaseCmd.ReleaseConfig)
    (lines : List String)
    (htry : core.Try = false)
    (hprep : (ReleaseCmd.prepareReleaseDir env.Stat env.RemoveAllErr env.MkdirAllErr
      (ReleaseCmd.releaseDirOf core release)).1 = .ok ())
    (hne : (ReleaseCmd.collectArchiveFilenames core release).isEmpty = false)
    (hck : env.ChecksumLines = .ok lines)
    (hckw : env.ChecksumWriteErr = none)
    (hcl : env.NewClientErr = none)
    (hgen : release.ReleaseSettings.ReleaseNotesSettings.Generate = true)
    (hfn : release.ReleaseSettings.ReleaseNotesSettings.Filename ≠ "") :
    (ReleaseCmd.execRelease env core release).1
        = .error ("release: both GenerateReleaseNotes and ReleaseNotesFilename are set for release type "
            ++ strconvQuote release.ReleaseSettings.ReleaseType)
      ∧ ∀ p g, ReleaseCmd.REvent.writeReleaseNotes p g
          ∉ (ReleaseCmd.execRelease env core release).2 := by
  rcases hpair : ReleaseCmd.prepareReleaseDir env.Stat env.RemoveAllErr env.MkdirAllErr
      (ReleaseCmd.releaseDirOf core release) with ⟨res, evs0⟩
  rw [hpair] at hprep
  simp only at hprep
  subst hprep
  have hnotes : ReleaseCmd.generateNotes env.Changes env.NotesWriteErr
      (ReleaseCmd.releaseDirOf core release) release.ReleaseSettings
      = (.error ("release: both GenerateReleaseNotes and ReleaseNotesFilename are set for release type "
          ++ strconvQuote release.ReleaseSettings.ReleaseType), []) := by
    unfold ReleaseCmd.generateNotes
    rw [hgen]
    simp only [if_true]
    rw [if_pos hfn]
  have hexec : ReleaseCmd.execRelease env core release
      = (.error ("release: both GenerateReleaseNotes and ReleaseNotesFilename are set for release type "
          ++ strconvQuote release.ReleaseSettings.ReleaseType),
        evs0 ++ [ReleaseCmd.REvent.writeChecksumFile
          (filepathJoin [ReleaseCmd.releaseDirOf core release, "checksum.txt"]) lines]) := by
    simp only [ReleaseCmd.execRelease, hpair, hne, Bool.false_eq_true, if_false, htry,
      hck, hckw, hcl, hnotes, List.append_nil]
  refine ⟨by rw [hexec], ?_⟩
  intro p g hmem
  rw [hexec] at hmem
  simp only [List.mem_append, List.mem_singleton] at hmem
  rcases hmem with h | h
  · have := prepareReleaseDir_events env.Stat env.RemoveAllErr env.MkdirAllErr
      (ReleaseCmd.releaseDirOf core release) _ (by rw [hpair]; exact h)
    rcases this with h' | h' <;> cases h'
  · cases h

/-- Witness for `conflicting_release_notes_config`: generation enabled
together with a configured notes file fails naming the github release
type. -/
theorem conflicting_release_notes_config_witness :
    (ReleaseCmd.execRelease
        { Stat := .ok, RemoveAllErr := none, MkdirAllErr := none
          ChecksumLines := .ok ["8f3a  hugo.tar.gz"], ChecksumWriteErr := none
          NewClientErr := none, Changes := .ok [], NotesWriteErr := none
          ReleaseErr := none, UploadErr := fun _ => none }
        { DistDir := "dist", Project := "hugo", Tag := "v1.0"
          DistRootReleases := "releases", DistRootArchives := "archives"
          Try := false
          Archives := [{ ArchsCompiled := [{ Path := "linux/amd64", Name := "hugo.tar.gz" }] }] }
        { Path := "myrelease", PathsCompiledMatch := fun _ => true
          ReleaseSettings :=
            { ReleaseType := "github"
              ReleaseNotesSettings :=
                { Generate := true, Filename := "notes.md", Groups := [] } } }).1
      = .error "release: both GenerateReleaseNotes and ReleaseNotesFilename are set for release type \"github\"" := by
  have h := conflicting_release_notes_config
    { Stat := .ok, RemoveAllErr := none, MkdirAllErr := none
      ChecksumLines := .ok ["8f3a  hugo.tar.gz"], ChecksumWriteErr := none
      NewClientErr := none, Changes := .ok [], NotesWriteErr := none
      ReleaseErr := none, UploadErr := fun _ => none }
    { DistDir := "dist", Project := "hugo", Tag := "v1.0"
      DistRootReleases := "releases", DistRootArchives := "archives"
      Try := false
      Archives := [{ ArchsCompiled := [{ Path := "linux/amd64", Name := "hugo.tar.gz" }] }] }
    { Path := "myrelease", PathsCompiledMatch := fun _ => true
      ReleaseSettings :=
        { ReleaseType := "github"
          ReleaseNotesSettings :=
            { Generate := true, Filename := "notes.md", Groups := [] } } }
    ["8f3a  hugo.tar.gz"]
    rfl rfl (by decide) rfl rfl rfl rfl (by decide)
  exact h.1.trans (congrArg Except.error (by decide))

/-- C10: when stat-ing the release output directory fails with an error
that is neither success nor not-exist, the release command neither
removes nor recreates the directory and silently proceeds — it writes the
checksum file and the release-notes file into that directory and the
iteration completes without reporting the stat failure. -/
theorem stat_error_silently_proceeds (env : ReleaseCmd.Env)
    (core : ReleaseCmd.Core) (release : ReleaseCmd.ReleaseConfig)
    (e : String) (lines : List String) (infos : List Changelog.Change)
    (hstat : env.Stat = .err e)
    (htry : core.Try = false)
    (hne : (ReleaseCmd.collectArchiveFilenames core release).isEmpty = false)
    (hck : env.ChecksumLines = .ok lines)
    (hckw : env.ChecksumWriteErr = none)
    (hcl : env.NewClientErr = none)
    (hgen : release.ReleaseSettings.ReleaseNotesSettings.Generate = true)
    (hfn : release.ReleaseSettings.ReleaseNotesSettings.Filename = "")
    (hch : env.Changes = .ok infos)
    (hnw : env.NotesWriteErr = none)
    (hrel : env.ReleaseErr = none)
    (hup : ∀ f, env.UploadErr f = none) :
    (ReleaseCmd.execRelease env core release).1 = .ok ()
      ∧ (∀ d, ReleaseCmd.REvent.removeAll d ∉ (ReleaseCmd.execRelease env core release).2)
      ∧ (∀ d, ReleaseCmd.REvent.mkdirAll d ∉ (ReleaseCmd.execRelease env core release).2)
      ∧ ReleaseCmd.REvent.writeChecksumFile
          (filepathJoin [ReleaseCmd.releaseDirOf core release, "checksum.txt"]) lines
          ∈ (ReleaseCmd.execRelease env core release).2
      ∧ ∃ g, ReleaseCmd.REvent.writeReleaseNotes
          (filepathJoin [ReleaseCmd.releaseDirOf core release, "release-notes.md"]) g
          ∈ (ReleaseCmd.execRelease env core release).2 := by
  have hpair : ReleaseCmd.prepareReleaseDir env.Stat env.RemoveAllErr env.MkdirAllErr
      (ReleaseCmd.releaseDirOf core release) = (.ok (), []) := by
    rw [hstat]
    rfl
  have hnotes : ReleaseCmd.generateNotes env.Changes env.NotesWriteErr
      (ReleaseCmd.releaseDirOf core release) release.ReleaseSettings
      = (.ok { release.ReleaseSettings with
          ReleaseNotesSettings := { release.ReleaseSettings.ReleaseNotesSettings with
            Filename := filepathJoin [ReleaseCmd.releaseDirOf core release, "release-notes.md"] } },
        [ReleaseCmd.REvent.writeReleaseNotes
          (filepathJoin [ReleaseCmd.releaseDirOf core release, "release-notes.md"])
          (Changelog.GroupByFunc
            (Changelog.releaseNotesGroupFn release.ReleaseSettings.ReleaseNotesSettings.Groups)
            infos)]) := by
    unfold ReleaseCmd.generateNotes
    rw [hgen, hch, hnw]
    simp [hfn]
  have hfind : List.find? (fun f => (env.UploadErr f).isSome)
      (ReleaseCmd.collectArchiveFilenames core release
        ++ [filepathJoin [ReleaseCmd.releaseDirOf core release, "checksum.txt"]]) = none := by
    rw [List.find?_eq_none]
    intro x _
    simp [hup x]
  refine ⟨?_, ?_, ?_, ?_, ?_⟩
  · simp only [ReleaseCmd.execRelease, hpair, hne, Bool.false_eq_true, if_false, htry,
      hck, hckw, hcl, hnotes, hrel, hfind]
  · intro d hmem
    simp only [ReleaseCmd.execRelease, hpair, hne, Bool.false_eq_true, if_false, htry,
      hck, hckw, hcl, hnotes, hrel, hfind] at hmem
    simp at hmem
  · intro d hmem
    simp only [ReleaseCmd.execRelease, hpair, hne, Bool.false_eq_true, if_false, htry,
      hck, hckw, hcl, hnotes, hrel, hfind] at hmem
    simp at hmem
  · simp only [ReleaseCmd.execRelease, hpair, hne, Bool.false_eq_true, if_false, htry,
      hck, hckw, hcl, hnotes, hrel, hfind]
    simp
  · refine ⟨Changelog.GroupByFunc
      (Changelog.releaseNotesGroupFn release.ReleaseSettings.ReleaseNotesSettings.Groups)
      infos, ?_⟩
    simp only [ReleaseCmd.execRelease, hpair, hne, Bool.false_eq_true, if_false, htry,
      hck, hckw, hcl, hnotes, hrel, hfind]
    simp

/-- Witness for `stat_error_silently_proceeds`: a permission-style stat
error leaves the directory untouched and the run still succeeds. -/
theorem stat_error_silently_proceeds_witness :
    (ReleaseCmd.execRelease
        { Stat := .err "permission denied", RemoveAllErr := none, MkdirAllErr := none
          ChecksumLines := .ok ["8f3a  hugo.tar.gz"], ChecksumWriteErr := none
          NewClientErr := none, Changes := .ok [], NotesWriteErr := none
          ReleaseErr := none, UploadErr := fun _ => none }
        { DistDir := "dist", Project := "hugo", Tag := "v1.0"
          DistRootReleases := "releases", DistRootArchives := "archives"
          Try := false
          Archives := [{ ArchsCompiled := [{ Path := "linux/amd64", Name := "hugo.tar.gz" }] }] }
        { Path := "myrelease", PathsCompiledMatch := fun _ => true
          ReleaseSettings :=
            { ReleaseType := "github"
              ReleaseNotesSettings :=
                { Generate := true, Filename := "", Groups := [] } } }).1
      = .ok ()
    ∧ ReleaseCmd.REvent.writeChecksumFile
        "dist/hugo/v1.0/releases/myrelease/checksum.txt" ["8f3a  hugo.tar.gz"]
        ∈ (ReleaseCmd.execRelease
        { Stat := .err "permission denied", RemoveAllErr := none, MkdirAllErr := none
          ChecksumLines := .ok ["8f3a  hugo.tar.gz"], ChecksumWriteErr := none
          NewClientErr := none, Changes := .ok [], NotesWriteErr := none
          ReleaseErr := none, UploadErr := fun _ => none }
        { DistDir := "dist", Project := "hugo", Tag := "v1.0"
          DistRootReleases := "releases", DistRootArchives := "archives"
          Try := false
          Archives := [{ ArchsCompiled := [{ Path := "linux/amd64", Name := "hugo.tar.gz" }] }] }
        { Path := "myrelease", PathsCompiledMatch := fun _ => true
          ReleaseSettings :=
            { ReleaseType := "github"
              ReleaseNotesSettings :=
                { Generate := true, Filename := "", Groups := [] } } }).2 := by
  have h := stat_error_silently_proceeds
    { Stat := .err "permission denied", RemoveAllErr := none, MkdirAllErr := none
      ChecksumLines := .ok ["8f3a  hugo.tar.gz"], ChecksumWriteErr := none
      NewClientErr := none, Changes := .ok [], NotesWriteErr := none
      ReleaseErr := none, UploadErr := fun _ => none }
    { DistDir := "dist", Project := "hugo", Tag := "v1.0"
      DistRootReleases := "releases", DistRootArchives := "archives"
      Try := false
      Archives := [{ ArchsCompiled := [{ Path := "linux/amd64", Name := "hugo.tar.gz" }] }] }
    { Path := "myrelease", PathsCompiledMatch := fun _ => true
      ReleaseSettings :=
        { ReleaseType := "github"
          ReleaseNotesSettings :=
            { Generate := true, Filename := "", Groups := [] } } }
    "permission denied" ["8f3a  hugo.tar.gz"] []
    rfl rfl (by decide) rfl rfl rfl rfl rfl rfl rfl rfl (fun _ => rfl)
  exact ⟨h.1, h.2.2.2.1⟩

/-- C1: in dry-run mode the release iteration stops right after collecting
the archive filenames — the `continue` at release.go:153-155 runs before
checksum and release-notes production and before any client is built, so
no checksum file is written, no release-notes file is written, and no
client (real or fake) is ever invoked; only the directory preparation has
happened.  This contradicts the documented dry-run behaviour (all local
file production with the fake client substituted), and the fake-client
substitution at release.go:194-196 is unreachable in dry-run mode. -/
theorem dry_run_skips_local_file_production :
    ReleaseCmd.execRelease
        { Stat := .ok, RemoveAllErr := none, MkdirAllErr := none
          ChecksumLines := .ok ["8f3a  hugo.tar.gz"], ChecksumWriteErr := none
          NewClientErr := none, Changes := .ok [], NotesWriteErr := none
          ReleaseErr := none, UploadErr := fun _ => none }
        { DistDir := "dist", Project := "hugo", Tag := "v1.0"
          DistRootReleases := "releases", DistRootArchives := "archives"
          Try := true
          Archives := [{ ArchsCompiled := [{ Path := "linux/amd64", Name := "hugo.tar.gz" }] }] }
        { Path := "myrelease", PathsCompiledMatch := fun _ => true
          ReleaseSettings :=
            { ReleaseType := "github"
              ReleaseNotesSettings := { Generate := true, Filename := "", Groups := [] } } }
      = (.ok (), [.removeAll "dist/hugo/v1.0/releases/myrelease",
                  .mkdirAll "dist/hugo/v1.0/releases/myrelease"])
    ∧ (∀ p l, ReleaseCmd.REvent.writeChecksumFile p l
        ∉ [ReleaseCmd.REvent.removeAll "dist/hugo/v1.0/releases/myrelease",
           ReleaseCmd.REvent.mkdirAll "dist/hugo/v1.0/releases/myrelease"])
    ∧ (∀ p g, ReleaseCmd.REvent.writeReleaseNotes p g
        ∉ [ReleaseCmd.REvent.removeAll "dist/hugo/v1.0/releases/myrelease",
           ReleaseCmd.REvent.mkdirAll "dist/hugo/v1.0/releases/myrelease"])
    ∧ (∀ c fn, ReleaseCmd.REvent.clientRelease c fn
        ∉ [ReleaseCmd.REvent.removeAll "dist/hugo/v1.0/releases/myrelease",
           ReleaseCmd.REvent.mkdirAll "dist/hugo/v1.0/releases/myrelease"])
    ∧ (∀ c f, ReleaseCmd.REvent.uploadAsset c f
        ∉ [ReleaseCmd.REvent.removeAll "dist/hugo/v1.0/releases/myrelease",
           ReleaseCmd.REvent.mkdirAll "dist/hugo/v1.0/releases/myrelease"]) := by
  refine ⟨rfl, ?_, ?_, ?_, ?_⟩ <;> intro a b hmem <;> simp at hmem

/-- C3 counterexample: in a full (non-dry-run) release with notes
generation enabled, the release-notes file is written but is NOT among
the uploaded assets — only the matched archive and the checksum file are
uploaded; the notes path travels to the provider only inside the release
settings. -/
theorem release_notes_not_uploaded_counterexample :
    ReleaseCmd.REvent.writeReleaseNotes
        "dist/hugo/v1.0/releases/myrelease/release-notes.md" []
      ∈ (ReleaseCmd.execRelease
        { Stat := .ok, RemoveAllErr := none, MkdirAllErr := none
          ChecksumLines := .ok ["8f3a  hugo.tar.gz"], ChecksumWriteErr := none
          NewClientErr := none, Changes := .ok [], NotesWriteErr := none
          ReleaseErr := none, UploadErr := fun _ => none }
        { DistDir := "dist", Project := "hugo", Tag := "v1.0"
          DistRootReleases := "releases", DistRootArchives := "archives"
          Try := false
          Archives := [{ ArchsCompiled := [{ Path := "linux/amd64", Name := "hugo.tar.gz" }] }] }
        { Path := "myrelease", PathsCompiledMatch := fun _ => true
          ReleaseSettings :=
            { ReleaseType := "github"
              ReleaseNotesSettings := { Generate := true, Filename := "", Groups := [] } } }).2
    ∧ ∀ c, ReleaseCmd.REvent.uploadAsset c
        "dist/hugo/v1.0/releases/myrelease/release-notes.md"
      ∉ (ReleaseCmd.execRelease
        { Stat := .ok, RemoveAllErr := none, MkdirAllErr := none
          ChecksumLines := .ok ["8f3a  hugo.tar.gz"], ChecksumWriteErr := none
          NewClientErr := none, Changes := .ok [], NotesWriteErr := none
          ReleaseErr := none, UploadErr := fun _ => none }
        { DistDir := "dist", Project := "hugo", Tag := "v1.0"
          DistRootReleases := "releases", DistRootArchives := "archives"
          Try := false
          Archives := [{ ArchsCompiled := [{ Path := "linux/amd64", Name := "hugo.tar.gz" }] }] }
        { Path := "myrelease", PathsCompiledMatch := fun _ => true
          ReleaseSettings :=
            { ReleaseType := "github"
              ReleaseNotesSettings := { Generate := true, Filename := "", Groups := [] } } }).2 := by
  have h : ReleaseCmd.execRelease
        { Stat := .ok, RemoveAllErr := none, MkdirAllErr := none
          ChecksumLines := .ok ["8f3a  hugo.tar.gz"], ChecksumWriteErr := none
          NewClientErr := none, Changes := .ok [], NotesWriteErr := none
          ReleaseErr := none, UploadErr := fun _ => none }
        { DistDir := "dist", Project := "hugo", Tag := "v1.0"
          DistRootReleases := "releases", DistRootArchives := "archives"
          Try := false
          Archives := [{ ArchsCompiled := [{ Path := "linux/amd64", Name := "hugo.tar.gz" }] }] }
        { Path := "myrelease", PathsCompiledMatch := fun _ => true
          ReleaseSettings :=
            { ReleaseType := "github"
              ReleaseNotesSettings := { Generate := true, Filename := "", Groups := [] } } }
      = (.ok (),
        [.removeAll "dist/hugo/v1.0/releases/myrelease",
         .mkdirAll "dist/hugo/v1.0/releases/myrelease",
         .writeChecksumFile "dist/hugo/v1.0/releases/myrelease/checksum.txt"
           ["8f3a  hugo.tar.gz"],
         .writeReleaseNotes "dist/hugo/v1.0/releases/myrelease/release-notes.md" [],
         .clientRelease (.real "github")
           "dist/hugo/v1.0/releases/myrelease/release-notes.md",
         .uploadAsset (.real "github") "dist/hugo/v1.0/archives/linux/amd64/hugo.tar.gz",
         .uploadAsset (.real "github") "dist/hugo/v1.0/releases/myrelease/checksum.txt"]) := rfl
  rw [h]
  constructor
  · simp
  · intro c hmem
    simp only [List.mem_cons, List.not_mem_nil, or_false] at hmem
    rcases hmem with h1 | h1 | h1 | h1 | h1 | h1 | h1 <;> first
      | cases h1
      | (injection h1 with h2 h3; exact absurd h3 (by decide))

/-- An event trace made only of directory, checksum-write, notes-write and
release-creation events uploads nothing. -/
theorem uploadedFiles_eq_nil (evs : List ReleaseCmd.REvent)
    (h : ∀ ev ∈ evs, ∀ c f, ev ≠ ReleaseCmd.REvent.uploadAsset c f) :
    ReleaseCmd.uploadedFiles evs = [] := by
  unfold ReleaseCmd.uploadedFiles
  rw [List.filterMap_eq_nil_iff]
  intro ev hev
  cases ev with
  | uploadAsset c f => exact absurd rfl (h _ hev c f)
  | removeAll d => rfl
  | mkdirAll d => rfl
  | writeChecksumFile p l => rfl
  | writeReleaseNotes p g => rfl
  | clientRelease c fn => rfl

/-- The function `uploadedFiles` distributes over trace concatenation. -/
theorem uploadedFiles_append (a b : List ReleaseCmd.REvent) :
    ReleaseCmd.uploadedFiles (a ++ b)
      = ReleaseCmd.uploadedFiles a ++ ReleaseCmd.uploadedFiles b :=
  List.filterMap_append a b _

/-- Mapping `uploadAsset` over a file list uploads exactly that list. -/
theorem uploadedFiles_map_upload (c : ReleaseCmd.ClientKind) (l : List String) :
    ReleaseCmd.uploadedFiles (l.map (ReleaseCmd.REvent.uploadAsset c)) = l := by
  induction l with
  | nil => rfl
  | cons x xs ih =>
    simp only [List.map_cons, ReleaseCmd.uploadedFiles, List.filterMap_cons]
    simp only [ReleaseCmd.uploadedFiles] at ih
    rw [ih]

/-- C3 amended: for every release target that reaches the upload phase,
the uploaded assets are exactly the matched archive files followed by the
checksum.txt file; the release-notes file, though produced, is not among
the uploaded assets — its path reaches the provider only inside the
settings of the release-creation call. -/
theorem uploaded_assets_archives_and_checksum (env : ReleaseCmd.Env)
    (core : ReleaseCmd.Core) (release : ReleaseCmd.ReleaseConfig)
    (lines : List String) (evs0 evsN : List ReleaseCmd.REvent)
    (settings2 : ReleaseCmd.ReleaseSettings)
    (htry : core.Try = false)
    (hprep : ReleaseCmd.prepareReleaseDir env.Stat env.RemoveAllErr env.MkdirAllErr
      (ReleaseCmd.releaseDirOf core release) = (.ok (), evs0))
    (hne : (ReleaseCmd.collectArchiveFilenames core release).isEmpty = false)
    (hck : env.ChecksumLines = .ok lines)
    (hckw : env.ChecksumWriteErr = none)
    (hcl : env.NewClientErr = none)
    (hnotes : ReleaseCmd.generateNotes env.Changes env.NotesWriteErr
      (ReleaseCmd.releaseDirOf core release) release.ReleaseSettings
      = (.ok settings2, evsN))
    (hrel : env.ReleaseErr = none) :
    ReleaseCmd.uploadedFiles (ReleaseCmd.execRelease env core release).2
      = ReleaseCmd.collectArchiveFilenames core release
        ++ [filepathJoin [ReleaseCmd.releaseDirOf core release, "checksum.txt"]]
    ∧ ReleaseCmd.REvent.clientRelease
        (.real release.ReleaseSettings.ReleaseType)
        settings2.ReleaseNotesSettings.Filename
      ∈ (ReleaseCmd.execRelease env core release).2 := by
  have htr : (ReleaseCmd.execRelease env core release).2
      = evs0
        ++ [ReleaseCmd.REvent.writeChecksumFile
          (filepathJoin [ReleaseCmd.releaseDirOf core release, "checksum.txt"]) lines]
        ++ evsN
        ++ [ReleaseCmd.REvent.clientRelease
          (.real release.ReleaseSettings.ReleaseType)
          settings2.ReleaseNotesSettings.Filename]
        ++ (ReleaseCmd.collectArchiveFilenames core release
            ++ [filepathJoin [ReleaseCmd.releaseDirOf core release, "checksum.txt"]]).map
          (ReleaseCmd.REvent.uploadAsset (.real release.ReleaseSettings.ReleaseType)) := by
    simp only [ReleaseCmd.execRelease, hprep, hne, Bool.false_eq_true, if_false, htry,
      hck, hckw, hcl, hnotes, hrel]
    rcases List.find? (fun f => (env.UploadErr f).isSome)
        (ReleaseCmd.collectArchiveFilenames core release
          ++ [filepathJoin [ReleaseCmd.releaseDirOf core release, "checksum.txt"]])
      with _ | v <;> rfl
  have h0 : ReleaseCmd.uploadedFiles evs0 = [] := by
    apply uploadedFiles_eq_nil
    intro ev hev c f hEq
    have hk := prepareReleaseDir_events env.Stat env.RemoveAllErr env.MkdirAllErr
      (ReleaseCmd.releaseDirOf core release) ev (by rw [hprep]; exact hev)
    rcases hk with h | h <;> (rw [h] at hEq; cases hEq)
  have hN : ReleaseCmd.uploadedFiles evsN = [] := by
    apply uploadedFiles_eq_nil
    intro ev hev c f hEq
    obtain ⟨g, hg⟩ := generateNotes_events env.Changes env.NotesWriteErr
      (ReleaseCmd.releaseDirOf core release) release.ReleaseSettings ev
      (by rw [hnotes]; exact hev)
    rw [hg] at hEq
    cases hEq
  constructor
  · rw [htr, uploadedFiles_append, uploadedFiles_append, uploadedFiles_append,
      uploadedFiles_append, h0, hN, uploadedFiles_map_upload]
    simp [ReleaseCmd.uploadedFiles]
  · rw [htr]
    simp

/-- Witness for `uploaded_assets_archives_and_checksum`: one matched
archive and notes generation enabled — the uploads are the archive and the
checksum file only. -/
theorem uploaded_assets_archives_and_checksum_witness :
    ReleaseCmd.uploadedFiles (ReleaseCmd.execRelease
        { Stat := .ok, RemoveAllErr := none, MkdirAllErr := none
          ChecksumLines := .ok ["8f3a  hugo.tar.gz"], ChecksumWriteErr := none
          NewClientErr := none, Changes := .ok [], NotesWriteErr := none
          ReleaseErr := none, UploadErr := fun _ => none }
        { DistDir := "dist", Project := "hugo", Tag := "v1.0"
          DistRootReleases := "releases", DistRootArchives := "archives"
          Try := false
          Archives := [{ ArchsCompiled := [{ Path := "linux/amd64", Name := "hugo.tar.gz" }] }] }
        { Path := "myrelease", PathsCompiledMatch := fun _ => true
          ReleaseSettings :=
            { ReleaseType := "github"
              ReleaseNotesSettings := { Generate := true, Filename := "", Groups := [] } } }).2
      = ["dist/hugo/v1.0/archives/linux/amd64/hugo.tar.gz",
         "dist/hugo/v1.0/releases/myrelease/checksum.txt"] := by
  have h := uploaded_assets_archives_and_checksum
    { Stat := .ok, RemoveAllErr := none, MkdirAllErr := none
      ChecksumLines := .ok ["8f3a  hugo.tar.gz"], ChecksumWriteErr := none
      NewClientErr := none, Changes := .ok [], NotesWriteErr := none
      ReleaseErr := none, UploadErr := fun _ => none }
    { DistDir := "dist", Project := "hugo", Tag := "v1.0"
      DistRootReleases := "releases", DistRootArchives := "archives"
      Try := false
      Archives := [{ ArchsCompiled := [{ Path := "linux/amd64", Name := "hugo.tar.gz" }] }] }
    { Path := "myrelease", PathsCompiledMatch := fun _ => true
      ReleaseSettings :=
        { ReleaseType := "github"
          ReleaseNotesSettings := { Generate := true, Filename := "", Groups := [] } } }
    ["8f3a  hugo.tar.gz"]
    [.removeAll "dist/hugo/v1.0/releases/myrelease",
     .mkdirAll "dist/hugo/v1.0/releases/myrelease"]
    [.writeReleaseNotes "dist/hugo/v1.0/releases/myrelease/release-notes.md" []]
    { ReleaseType := "github"
      ReleaseNotesSettings :=
        { Generate := true
          Filename := "dist/hugo/v1.0/releases/myrelease/release-notes.md"
          Groups := [] } }
    rfl rfl (by decide) rfl rfl rfl rfl rfl
  exact h.1.trans (by decide)

/-- C9: for every oracle outcome, target path and source file — whatever
step of `AddAndClose` fails (stat, header construction, header write, body
copy) or none at all — the source file handle is closed by the time the
call returns, because `defer f.Close()` runs on every return path. -/
theorem addAndClose_always_closes (o : Targz.TarOracles) (targetPath : String)
    (f : Targz.GoFile) : (Targz.addAndClose o targetPath f).closed = true := by
  unfold Targz.addAndClose
  cases f.statRes with
  | error e => rfl
  | ok info =>
    cases o.fileInfoHeaderErr with
    | some e => rfl
    | none =>
      cases o.writeHeaderErr with
      | some e => rfl
      | none =>
        cases o.copyErr with
        | some e => rfl
        | none => rfl
